import Mathlib

/-!
Verification of the Fyyur booking-directory data/query layer.

The Python source (src/app.py) is shallowly embedded below: SQLAlchemy
models become Lean structures, each Flask handler's data logic becomes a
pure Lean function over an explicit database value, and `datetime.now()`
becomes an explicit `now : Nat` parameter.  Timestamps are modelled as
natural numbers; SQL string ordering is modelled as lexicographic order
on character lists.
-/

namespace Fyyur

/- ## String-order helpers (model of SQL ORDER BY / ILIKE semantics) -/

/-- The SQL LIKE wildcard character for an arbitrary sequence, `%`. -/
def pct : Char := Char.ofNat 37

/-- The SQL LIKE wildcard character for a single character, `_`. -/
def usc : Char := Char.ofNat 95

/-- Case-insensitive character equality, as used by ILIKE. -/
def charCI (a b : Char) : Bool := a.toLower == b.toLower

/-- Lexicographic less-or-equal on character lists: the order used to model
`ORDER BY` on string columns. -/
def strLE : List Char → List Char → Bool
  | [], _ => true
  | _ :: _, [] => false
  | c :: cs, d :: ds => decide (c < d) || (c == d && strLE cs ds)

/- ## Data model (src/app.py, classes Venue / Artist / Show) -/

/-- The `Venue` model: integer primary key plus the column set of
`class Venue(db.Model)`. -/
structure Venue where
  id : Nat
  name : String
  genres : List String
  address : String
  city : String
  state : String
  phone : String
  website : String
  facebook_link : String
  seeking_talent : Bool
  seeking_description : String
  image_link : String
deriving DecidableEq, Repr

/-- The `Artist` model: like `Venue` minus `address`, with a
`seeking_venue` flag. -/
structure Artist where
  id : Nat
  name : String
  genres : List String
  city : String
  state : String
  phone : String
  website : String
  facebook_link : String
  seeking_venue : Bool
  seeking_description : String
  image_link : String
deriving DecidableEq, Repr

/-- The `Show` model: start timestamp plus foreign keys to `Venue` and
`Artist`.  Timestamps are modelled as naturals. -/
structure ShowRec where
  id : Nat
  start_time : Nat
  venue_id : Nat
  artist_id : Nat
deriving DecidableEq, Repr

/-- The whole relational store backing the app. -/
structure DB where
  venues : List Venue
  artists : List Artist
  shows : List ShowRec
deriving DecidableEq, Repr

/- ## Venues listing (handler `venues()`, src/app.py lines 126-156) -/

/-- The `(city, state)` grouping key of a venue. -/
def venueKey (v : Venue) : String × String := (v.city, v.state)

/-- The `{id, name}` entry placed into a city/state group. -/
structure VenueItem where
  id : Nat
  name : String
deriving DecidableEq, Repr

/-- Project a venue to its listing entry. -/
def venueItem (v : Venue) : VenueItem := ⟨v.id, v.name⟩

/-- Descending order on generated ids (`Venue.id.desc()` / `Artist.id.desc()`). -/
def natGE (i j : Nat) : Bool := decide (j ≤ i)

/-- Lexicographic combination: compare the string component first, and fall
through to `inner` on ties. -/
def guardLE {β : Type} (inner : β → β → Bool) (p q : List Char × β) : Bool :=
  if p.1 = q.1 then inner p.2 q.2 else strLE p.1 q.1

/-- Comparator realising `ORDER BY Venue.city, Venue.state, Venue.id DESC`. -/
def venueLE (a b : Venue) : Bool :=
  guardLE (guardLE natGE)
    (a.city.toList, a.state.toList, a.id) (b.city.toList, b.state.toList, b.id)

/-- One `{city, state, venues}` group of the venues page. -/
structure Area where
  city : String
  state : String
  venues : List VenueItem
deriving DecidableEq, Repr

/-- Insert one venue entry into the ordered association list that models the
Python dict `city_state_dict` (insertion order preserved, entries appended to
an existing key's list). -/
def addToGroups (k : String × String) (e : VenueItem) :
    List ((String × String) × List VenueItem) →
    List ((String × String) × List VenueItem)
  | [] => [(k, [e])]
  | g :: rest =>
    if g.1 = k then (g.1, g.2 ++ [e]) :: rest else g :: addToGroups k e rest

/-- The grouping loop of `venues()`: fold the (sorted) venue list into the
ordered association list. -/
def groupVenues (acc : List ((String × String) × List VenueItem)) :
    List Venue → List ((String × String) × List VenueItem)
  | [] => acc
  | v :: vs => groupVenues (addToGroups (venueKey v) (venueItem v) acc) vs

/-- Handler `venues()`: sort by (city, state, id desc), group by (city,
state) in dict insertion order, and shape each group as an `Area`. -/
def venuesListing (db : DB) : List Area :=
  (groupVenues [] (db.venues.mergeSort venueLE)).map (fun g => ⟨g.1.1, g.1.2, g.2⟩)

/-- First-encounter deduplication of a key sequence: the order in which the
Python dict acquires its keys. -/
def newKeys (seen : List (String × String)) :
    List (String × String) → List (String × String)
  | [] => []
  | k :: ks => if k ∈ seen then newKeys seen ks else k :: newKeys (k :: seen) ks

/-- The keys of a group list. -/
def keysOf (gs : List ((String × String) × List VenueItem)) :
    List (String × String) := gs.map Prod.fst

/-- All entries stored under key `k` in a group list. -/
def entriesAt (k : String × String)
    (gs : List ((String × String) × List VenueItem)) : List VenueItem :=
  (gs.filter (fun g => g.1 = k)).flatMap Prod.snd

/-- The correctness contract of the venues listing: every venue's entry lies
in exactly one group, a containing group carries the venue's own city/state,
the groups' union is the stored set, each group is in descending-id order,
and groups appear in first-encounter order of the sorted venue sequence. -/
def venuesListingCorrect (db : DB) : Prop :=
  (∀ v ∈ db.venues, ∃! a : Area, a ∈ venuesListing db ∧ venueItem v ∈ a.venues) ∧
  (∀ v ∈ db.venues, ∀ a ∈ venuesListing db,
    venueItem v ∈ a.venues → a.city = v.city ∧ a.state = v.state) ∧
  List.Perm ((venuesListing db).flatMap Area.venues) (db.venues.map venueItem) ∧
  (∀ a ∈ venuesListing db, a.venues.Pairwise (fun x y => y.id < x.id)) ∧
  (venuesListing db).map (fun a => (a.city, a.state)) =
    newKeys [] ((db.venues.mergeSort venueLE).map venueKey)

/-- Concrete three-venue store (two cities) used to witness the
venues-listing theorem. -/
def dbC1 : DB :=
  ⟨[⟨1, "The Hall", ["Jazz"], "1 Main", "Austin", "TX", "555", "", "", false, "", ""⟩,
    ⟨2, "The Dive", ["Rock"], "2 Main", "Austin", "TX", "555", "", "", false, "", ""⟩,
    ⟨3, "Blue Note", ["Jazz"], "3 Main", "New York", "NY", "555", "", "", false, "", ""⟩],
   [], []⟩

/- ## Search (handlers `search_venues` / `search_artists`) -/

/-- The ILIKE pattern `f"%{search_term}%"` built by the search handlers. -/
def ilikePattern (term : String) : List Char := pct :: (term.toList ++ [pct])

/-- The non-empty suffixes of a string plus the empty one: the candidate
remainders a `%` wildcard can leave behind. -/
def tailsOf : List Char → List (List Char)
  | [] => [[]]
  | d :: s => (d :: s) :: tailsOf s

/-- SQL LIKE matching with case-insensitive literal comparison (ILIKE):
`%` matches any sequence, `_` matches one character. -/
def likeM : List Char → List Char → Bool
  | [], s => s.isEmpty
  | c :: p, s =>
    if c == pct then (tailsOf s).any (fun t => likeM p t)
    else
      match s with
      | [] => false
      | d :: s2 => (c == usc || charCI c d) && likeM p s2

/-- Predicate `startsCI sub s`: `sub` is a case-insensitive prefix of `s`. -/
def startsCI : List Char → List Char → Bool
  | [], _ => true
  | _ :: _, [] => false
  | c :: p, d :: s => charCI c d && startsCI p s

/-- Predicate `containsCI sub s`: `sub` occurs contiguously in `s`, ignoring case —
the spec's "name contains the substring case-insensitively". -/
def containsCI (sub : List Char) : List Char → Bool
  | [] => sub.isEmpty
  | d :: s => startsCI sub (d :: s) || containsCI sub s

/-- A search term free of the SQL LIKE wildcard characters `%` and `_`. -/
def noWild (p : List Char) : Bool := p.all (fun c => !(c == pct) && !(c == usc))

/-- The venues matched by `Venue.name.ilike(f"%{term}%")`. -/
def searchVenuesMatched (term : String) (db : DB) : List Venue :=
  db.venues.filter (fun v => likeM (ilikePattern term) v.name.toList)

/-- The artists matched by `Artist.name.ilike(f"%{term}%")`. -/
def searchArtistsMatched (term : String) (db : DB) : List Artist :=
  db.artists.filter (fun a => likeM (ilikePattern term) a.name.toList)

/-- One search-result row: id, name, and upcoming-show count. -/
structure SearchEntry where
  id : Nat
  name : String
  num_upcoming_shows : Nat
deriving DecidableEq, Repr

/-- A search response: match count plus the shaped rows. -/
structure SearchResponse where
  count : Nat
  data : List SearchEntry
deriving DecidableEq, Repr

/-- Handler `search_venues` response: `count` is the number of matches and
each row counts that venue's shows with `Show.start_time > datetime.now()`
(strict comparison, as in the source). -/
def searchVenuesResponse (term : String) (now : Nat) (db : DB) : SearchResponse :=
  ⟨(searchVenuesMatched term db).length,
   (searchVenuesMatched term db).map (fun v =>
     ⟨v.id, v.name,
      (db.shows.filter
        (fun s => s.venue_id == v.id && decide (now < s.start_time))).length⟩)⟩

/-- Handler `search_artists` response, mirroring `search_venues`. -/
def searchArtistsResponse (term : String) (now : Nat) (db : DB) : SearchResponse :=
  ⟨(searchArtistsMatched term db).length,
   (searchArtistsMatched term db).map (fun a =>
     ⟨a.id, a.name,
      (db.shows.filter
        (fun s => s.artist_id == a.id && decide (now < s.start_time))).length⟩)⟩

/- ## Detail pages (handlers `show_venue` / `show_artist`) -/

/-- Error kinds surfaced by the handlers. -/
inductive Err where
  | notFound
  | storage
deriving DecidableEq, Repr

/-- The shows of one venue (the `venue.shows` relationship). -/
def venueShows (db : DB) (vid : Nat) : List ShowRec :=
  db.shows.filter (fun s => s.venue_id == vid)

/-- The shows of one artist (the `artist.shows` relationship). -/
def artistShows (db : DB) (aid : Nat) : List ShowRec :=
  db.shows.filter (fun s => s.artist_id == aid)

/-- Venue detail page data assembled by `show_venue`. -/
structure VenueDetail where
  id : Nat
  name : String
  genres : List String
  address : String
  city : String
  state : String
  phone : String
  website : String
  facebook_link : String
  seeking_talent : Bool
  seeking_description : String
  image_link : String
  past_shows : List ShowRec
  upcoming_shows : List ShowRec
  past_shows_count : Nat
  upcoming_shows_count : Nat
deriving DecidableEq, Repr

/-- Artist detail page data assembled by `show_artist`. -/
structure ArtistDetail where
  id : Nat
  name : String
  genres : List String
  city : String
  state : String
  phone : String
  website : String
  facebook_link : String
  seeking_venue : Bool
  seeking_description : String
  image_link : String
  past_shows : List ShowRec
  upcoming_shows : List ShowRec
  past_shows_count : Nat
  upcoming_shows_count : Nat
deriving DecidableEq, Repr

/-- Handler `show_venue`: 404 when the id is absent; otherwise the venue's
fields plus its shows partitioned into past (`show.start_time < now`) and
upcoming (the `else` branch, `start_time ≥ now`), with the counts being the
list lengths.  The per-show display row (the joined artist name/image and
formatted timestamp) is presentation shaping; the partition itself operates
on the show records, kept here. -/
def showVenueDetail (db : DB) (now : Nat) (vid : Nat) : Except Err VenueDetail :=
  match db.venues.find? (fun v => v.id == vid) with
  | none => Except.error Err.notFound
  | some v =>
    Except.ok
      ⟨v.id, v.name, v.genres, v.address, v.city, v.state, v.phone, v.website,
       v.facebook_link, v.seeking_talent, v.seeking_description, v.image_link,
       (venueShows db v.id).filter (fun s => decide (s.start_time < now)),
       (venueShows db v.id).filter (fun s => !decide (s.start_time < now)),
       ((venueShows db v.id).filter (fun s => decide (s.start_time < now))).length,
       ((venueShows db v.id).filter (fun s => !decide (s.start_time < now))).length⟩

/-- Handler `show_artist`, mirroring `show_venue`. -/
def showArtistDetail (db : DB) (now : Nat) (aid : Nat) : Except Err ArtistDetail :=
  match db.artists.find? (fun a => a.id == aid) with
  | none => Except.error Err.notFound
  | some a =>
    Except.ok
      ⟨a.id, a.name, a.genres, a.city, a.state, a.phone, a.website,
       a.facebook_link, a.seeking_venue, a.seeking_description, a.image_link,
       (artistShows db a.id).filter (fun s => decide (s.start_time < now)),
       (artistShows db a.id).filter (fun s => !decide (s.start_time < now)),
       ((artistShows db a.id).filter (fun s => decide (s.start_time < now))).length,
       ((artistShows db a.id).filter (fun s => !decide (s.start_time < now))).length⟩

/- ## Write operations (create / edit / delete venue), unit-of-work model -/

/-- The validated venue form fields (`VenueForm`). -/
structure VenueFormData where
  name : String
  genres : List String
  address : String
  city : String
  state : String
  phone : String
  website_link : String
  facebook_link : String
  seeking_talent : Bool
  seeking_description : String
  image_link : String
deriving DecidableEq, Repr

/-- The next generated primary key, modelling the id sequence. -/
def nextVenueId (db : DB) : Nat := (db.venues.map Venue.id).foldr max 0 + 1

/-- The record built by `create_venue_submission` out of the form fields
(note `website=form.website_link.data`). -/
def venueFromForm (vid : Nat) (f : VenueFormData) : Venue :=
  ⟨vid, f.name, f.genres, f.address, f.city, f.state, f.phone, f.website_link,
   f.facebook_link, f.seeking_talent, f.seeking_description, f.image_link⟩

/-- A unit of work: durable storage plus the session's working state. -/
structure Session where
  durable : DB
  working : DB
deriving DecidableEq, Repr

/-- Model of `db.session.commit()`: persist the working state, or fail (`fault`),
leaving durable storage untouched. -/
def commitSession (fault : Bool) (s : Session) : Bool × Session :=
  if fault then (false, s) else (true, ⟨s.working, s.working⟩)

/-- Model of `db.session.rollback()`: discard the pending working state. -/
def rollbackSession (s : Session) : Session := ⟨s.durable, s.durable⟩

/-- Handler `create_venue_submission`: stage the new record, commit, and on
any failure roll back.  Returns the success flag and the durable post-state
after `db.session.close()`. -/
def createVenueSubmission (fault : Bool) (f : VenueFormData) (db : DB) :
    Bool × DB :=
  let v := venueFromForm (nextVenueId db) f
  let s1 : Session := ⟨db, ⟨db.venues ++ [v], db.artists, db.shows⟩⟩
  let r := commitSession fault s1
  if r.1 then (true, r.2.durable) else (false, (rollbackSession r.2).durable)

/-- Handler `edit_venue_submission`: overwrite every mutable attribute of
venue `vid` in the session and commit; roll back on commit failure; redirect
with no mutation when the id is absent. -/
def editVenueSubmission (fault : Bool) (vid : Nat) (f : VenueFormData) (db : DB) :
    Except Err DB × DB :=
  match db.venues.find? (fun v => v.id == vid) with
  | none => (Except.error Err.notFound, db)
  | some _ =>
    let s1 : Session := ⟨db,
      ⟨db.venues.map (fun v =>
        if v.id == vid then
          ⟨v.id, f.name, f.genres, f.address, f.city, f.state, f.phone,
           f.website_link, f.facebook_link, f.seeking_talent,
           f.seeking_description, f.image_link⟩
        else v), db.artists, db.shows⟩⟩
    let r := commitSession fault s1
    if r.1 then (Except.ok r.2.durable, r.2.durable)
    else (Except.error Err.storage, (rollbackSession r.2).durable)

/-- Handler `delete_venue`: 404 and no mutation when the id is absent;
otherwise delete and commit, rolling back on a commit-time failure
(`fault`, e.g. the referential-integrity rejection when Shows still
reference the venue). -/
def deleteVenue (fault : Bool) (db : DB) (vid : Nat) : Except Err DB × DB :=
  match db.venues.find? (fun v => v.id == vid) with
  | none => (Except.error Err.notFound, db)
  | some _ =>
    let s1 : Session := ⟨db,
      ⟨db.venues.filter (fun w => !(w.id == vid)), db.artists, db.shows⟩⟩
    let r := commitSession fault s1
    if r.1 then (Except.ok r.2.durable, r.2.durable)
    else (Except.error Err.storage, (rollbackSession r.2).durable)

/- ## Artists listing (handler `artists()`) -/

/-- One `{id, name}` artist entry. -/
structure ArtistItem where
  id : Nat
  name : String
deriving DecidableEq, Repr

/-- Comparator realising `ORDER BY Artist.id.desc()`. -/
def artistGE (a b : Artist) : Bool := natGE a.id b.id

/-- Handler `artists()`: all artists ordered by descending id, shaped as
`{id, name}`. -/
def artistsListing (db : DB) : List ArtistItem :=
  (db.artists.mergeSort artistGE).map (fun a => ⟨a.id, a.name⟩)

/- ## Shows page and show creation (handlers `shows()` /
`create_show_submission`) -/

/-- One row of the shows page. -/
structure ShowDisplay where
  venue_id : Nat
  venue_name : String
  artist_id : Nat
  artist_name : String
  artist_image_link : String
  start_time : String
deriving DecidableEq, Repr

/-- Handler `shows()` as written in the source: the body ignores storage
entirely and returns five hard-coded mock rows (it is marked
`TODO: replace with real venues data.`). -/
def showsListing (_db : DB) : List ShowDisplay :=
  [⟨1, "The Musical Hop", 4, "Guns N Petals",
    "https://images.unsplash.com/photo-1549213783-8284d0336c4f?ixlib=rb-1.2.1&ixid=eyJhcHBfaWQiOjEyMDd9&auto=format&fit=crop&w=300&q=80",
    "2019-05-21T21:30:00.000Z"⟩,
   ⟨3, "Park Square Live Music & Coffee", 5, "Matt Quevedo",
    "https://images.unsplash.com/photo-1495223153807-b916f75de8c5?ixlib=rb-1.2.1&ixid=eyJhcHBfaWQiOjEyMDd9&auto=format&fit=crop&w=334&q=80",
    "2019-06-15T23:00:00.000Z"⟩,
   ⟨3, "Park Square Live Music & Coffee", 6, "The Wild Sax Band",
    "https://images.unsplash.com/photo-1558369981-f9ca78462e61?ixlib=rb-1.2.1&ixid=eyJhcHBfaWQiOjEyMDd9&auto=format&fit=crop&w=794&q=80",
    "2035-04-01T20:00:00.000Z"⟩,
   ⟨3, "Park Square Live Music & Coffee", 6, "The Wild Sax Band",
    "https://images.unsplash.com/photo-1558369981-f9ca78462e61?ixlib=rb-1.2.1&ixid=eyJhcHBfaWQiOjEyMDd9&auto=format&fit=crop&w=794&q=80",
    "2035-04-08T20:00:00.000Z"⟩,
   ⟨3, "Park Square Live Music & Coffee", 6, "The Wild Sax Band",
    "https://images.unsplash.com/photo-1558369981-f9ca78462e61?ixlib=rb-1.2.1&ixid=eyJhcHBfaWQiOjEyMDd9&auto=format&fit=crop&w=794&q=80",
    "2035-04-15T20:00:00.000Z"⟩]

/-- Handler `create_show_submission` as written in the source: the body is a
TODO stub that inserts nothing into storage and always flashes success. -/
def createShowSubmission (db : DB) (_start _vid _aid : Nat) : Bool × DB :=
  (true, db)

/- ## Concrete stores and inputs used by witnesses and counterexamples -/

/-- The empty store. -/
def dbEmpty : DB := ⟨[], [], []⟩

/-- A single venue named "a": counterexample store for the wildcard search
claim. -/
def dbC5 : DB :=
  ⟨[⟨1, "a", ["Jazz"], "1 Main", "Austin", "TX", "555", "", "", false, "", ""⟩],
   [], []⟩

/-- One venue with one show starting exactly at the query time `10`:
counterexample store for the upcoming-show boundary. -/
def dbC4 : DB :=
  ⟨[⟨1, "a", ["Jazz"], "1 Main", "Austin", "TX", "555", "", "", false, "", ""⟩],
   [⟨1, "b", ["Jazz"], "Austin", "TX", "555", "", "", false, "", ""⟩],
   [⟨1, 10, 1, 1⟩]⟩

/-- A venue and an artist with one past and one future show each, around
`now = 10`. -/
def dbC6 : DB :=
  ⟨[⟨1, "a", ["Jazz"], "1 Main", "Austin", "TX", "555", "", "", false, "", ""⟩,
    ⟨2, "c", ["Folk"], "2 Main", "Austin", "TX", "555", "", "", false, "", ""⟩],
   [⟨1, "b", ["Jazz"], "Austin", "TX", "555", "", "", false, "", ""⟩],
   [⟨1, 5, 1, 1⟩, ⟨2, 15, 1, 1⟩, ⟨3, 10, 2, 1⟩]⟩

/-- The spec's round-trip scenario form: "The Hall" in Austin. -/
def formHall : VenueFormData :=
  ⟨"The Hall", ["Jazz"], "1 Main", "Austin", "TX", "555-0100", "", "", false,
   "", ""⟩

/-- The venue-1 detail page of `dbC6` at time 10: the show at 5 is past, the
show at 15 upcoming. -/
def detailC6 : VenueDetail :=
  ⟨1, "a", ["Jazz"], "1 Main", "Austin", "TX", "555", "", "", false, "", "",
   [⟨1, 5, 1, 1⟩], [⟨2, 15, 1, 1⟩], 1, 1⟩

theorem strLE_refl (a : List Char) : strLE a a = true := by
  induction a with
  | nil => rfl
  | cons c cs ih => simp [strLE, ih]

theorem strLE_total (a b : List Char) : (strLE a b || strLE b a) = true := by
  induction a generalizing b with
  | nil => simp [strLE]
  | cons c cs ih =>
    cases b with
    | nil => simp [strLE]
    | cons d ds =>
      rcases lt_trichotomy c d with h | h | h
      · simp [strLE, h]
      · subst h
        have := ih ds
        simp [strLE, Bool.or_assoc, Bool.or_comm, Bool.or_left_comm] at this ⊢
        tauto
      · simp [strLE, h]

theorem strLE_trans (a b c : List Char) (hab : strLE a b = true)
    (hbc : strLE b c = true) : strLE a c = true := by
  induction a generalizing b c with
  | nil => simp [strLE]
  | cons x xs ih =>
    cases b with
    | nil => simp [strLE] at hab
    | cons y ys =>
      cases c with
      | nil => simp [strLE] at hbc
      | cons z zs =>
        simp only [strLE, Bool.or_eq_true, Bool.and_eq_true, decide_eq_true_eq,
          beq_iff_eq] at hab hbc ⊢
        rcases hab with h1 | ⟨h1, h1'⟩
        · rcases hbc with h2 | ⟨h2, h2'⟩
          · exact Or.inl (lt_trans h1 h2)
          · exact Or.inl (h2 ▸ h1)
        · rcases hbc with h2 | ⟨h2, h2'⟩
          · exact Or.inl (h1 ▸ h2)
          · exact Or.inr ⟨h1.trans h2, ih ys zs h1' h2'⟩

theorem strLE_antisymm (a b : List Char) (hab : strLE a b = true)
    (hba : strLE b a = true) : a = b := by
  induction a generalizing b with
  | nil =>
    cases b with
    | nil => rfl
    | cons d ds => simp [strLE] at hba
  | cons c cs ih =>
    cases b with
    | nil => simp [strLE] at hab
    | cons d ds =>
      simp only [strLE, Bool.or_eq_true, Bool.and_eq_true, decide_eq_true_eq,
        beq_iff_eq] at hab hba
      rcases hab with h1 | ⟨h1, h1'⟩
      · rcases hba with h2 | ⟨h2, h2'⟩
        · exact absurd (lt_trans h1 h2) (lt_irrefl c)
        · exact absurd h1 (h2 ▸ lt_irrefl d)
      · rcases hba with h2 | ⟨h2, h2'⟩
        · exact absurd h2 (h1 ▸ lt_irrefl c)
        · exact h1 ▸ congrArg (List.cons c) (ih ds h1' h2')

theorem natGE_trans (x y z : Nat) (h1 : natGE x y = true) (h2 : natGE y z = true) :
    natGE x z = true := by
  simp only [natGE, decide_eq_true_eq] at *
  exact le_trans h2 h1

theorem natGE_total (x y : Nat) : (natGE x y || natGE y x) = true := by
  simp only [natGE, Bool.or_eq_true, decide_eq_true_eq]
  exact Nat.le_total y x

theorem guardLE_trans {β : Type} (inner : β → β → Bool)
    (hT : ∀ x y z, inner x y = true → inner y z = true → inner x z = true)
    (p q r : List Char × β) (hpq : guardLE inner p q = true)
    (hqr : guardLE inner q r = true) : guardLE inner p r = true := by
  obtain ⟨c1, x1⟩ := p
  obtain ⟨c2, x2⟩ := q
  obtain ⟨c3, x3⟩ := r
  simp only [guardLE] at *
  by_cases h12 : c1 = c2 <;> by_cases h23 : c2 = c3
  · subst h12; subst h23
    simp only [if_pos rfl] at *
    exact hT _ _ _ hpq hqr
  · subst h12
    simp only [if_pos rfl, if_neg h23] at *
    exact hqr
  · subst h23
    simp only [if_pos rfl, if_neg h12] at *
    exact hpq
  · rw [if_neg h12] at hpq
    rw [if_neg h23] at hqr
    by_cases h13 : c1 = c3
    · subst h13
      exact absurd (strLE_antisymm _ _ hpq hqr) h12
    · rw [if_neg h13]
      exact strLE_trans _ _ _ hpq hqr

theorem guardLE_total {β : Type} (inner : β → β → Bool)
    (hT : ∀ x y, (inner x y || inner y x) = true)
    (p q : List Char × β) : (guardLE inner p q || guardLE inner q p) = true := by
  obtain ⟨c1, x1⟩ := p
  obtain ⟨c2, x2⟩ := q
  simp only [guardLE]
  by_cases h : c1 = c2
  · subst h
    simp only [if_pos rfl]
    exact hT _ _
  · rw [if_neg h, if_neg (fun hh => h hh.symm)]
    exact strLE_total _ _

theorem venueLE_trans (a b c : Venue) (h1 : venueLE a b = true)
    (h2 : venueLE b c = true) : venueLE a c = true := by
  unfold venueLE at h1 h2 ⊢
  exact guardLE_trans _ (guardLE_trans natGE natGE_trans) _ _ _ h1 h2

theorem venueLE_total (a b : Venue) : (venueLE a b || venueLE b a) = true := by
  unfold venueLE
  exact guardLE_total _ (guardLE_total natGE natGE_total) _ _

/-- On venues sharing a city and a state, the sort comparator orders ids
descending. -/
theorem venueLE_id_of_key_eq (a b : Venue) (hc : a.city = b.city)
    (hs : a.state = b.state) (h : venueLE a b = true) : b.id ≤ a.id := by
  simp only [venueLE, guardLE, hc, hs, if_pos, natGE, decide_eq_true_eq] at h
  simpa using h

/- ### Characterisation of the dict-based grouping -/

theorem keysOf_cons (g : (String × String) × List VenueItem)
    (gs : List ((String × String) × List VenueItem)) :
    keysOf (g :: gs) = g.1 :: keysOf gs := rfl

theorem keysOf_addToGroups (k : String × String) (e : VenueItem)
    (gs : List ((String × String) × List VenueItem)) :
    keysOf (addToGroups k e gs) =
      if k ∈ keysOf gs then keysOf gs else keysOf gs ++ [k] := by
  induction gs with
  | nil => simp [addToGroups, keysOf]
  | cons g rest ih =>
    by_cases h : g.1 = k
    · have hk : k ∈ keysOf (g :: rest) := by
        rw [keysOf_cons]
        exact h ▸ List.mem_cons_self _ _
      simp only [addToGroups, if_pos h, if_pos hk]
      rfl
    · have hne : ¬(k = g.1) := fun hh => h hh.symm
      simp only [addToGroups, if_neg h, keysOf_cons, List.mem_cons, ih]
      by_cases hm : k ∈ keysOf rest <;> simp [hm, hne]

theorem nodup_keysOf_addToGroups (k : String × String) (e : VenueItem)
    (gs : List ((String × String) × List VenueItem))
    (h : (keysOf gs).Nodup) : (keysOf (addToGroups k e gs)).Nodup := by
  rw [keysOf_addToGroups]
  by_cases hm : k ∈ keysOf gs
  · simpa [hm] using h
  · rw [if_neg hm, List.nodup_append]
    exact ⟨h, List.nodup_singleton k,
      fun x hx hxk => hm ((List.mem_singleton.mp hxk) ▸ hx)⟩

theorem entriesAt_of_not_mem (k : String × String)
    (gs : List ((String × String) × List VenueItem))
    (h : k ∉ keysOf gs) : entriesAt k gs = [] := by
  have hnil : gs.filter (fun g => g.1 = k) = [] := by
    rw [List.filter_eq_nil_iff]
    intro g hg
    simp only [decide_eq_true_eq]
    intro hgk
    exact h (hgk ▸ List.mem_map_of_mem Prod.fst hg)
  simp [entriesAt, hnil]

theorem entriesAt_cons (k2 : String × String)
    (g : (String × String) × List VenueItem)
    (gs : List ((String × String) × List VenueItem)) :
    entriesAt k2 (g :: gs) =
      if g.1 = k2 then g.2 ++ entriesAt k2 gs else entriesAt k2 gs := by
  by_cases h : g.1 = k2 <;> simp [entriesAt, List.filter_cons, h]

theorem entriesAt_addToGroups (k2 k : String × String) (e : VenueItem)
    (gs : List ((String × String) × List VenueItem))
    (h : (keysOf gs).Nodup) :
    entriesAt k2 (addToGroups k e gs) =
      if k2 = k then entriesAt k2 gs ++ [e] else entriesAt k2 gs := by
  induction gs with
  | nil =>
    by_cases hk : k2 = k
    · subst hk
      simp [addToGroups, entriesAt_cons, entriesAt]
    · have hk2 : ¬(k = k2) := fun hh => hk hh.symm
      simp [addToGroups, entriesAt_cons, entriesAt, hk, hk2]
  | cons g rest ih =>
    rw [keysOf_cons] at h
    have hnodup : (keysOf rest).Nodup := (List.nodup_cons.mp h).2
    have hgrest : g.1 ∉ keysOf rest := (List.nodup_cons.mp h).1
    by_cases hgk : g.1 = k
    · by_cases hk2 : k2 = k
      · have hg2 : g.1 = k2 := hgk.trans hk2.symm
        have hrest : entriesAt k2 rest = [] :=
          entriesAt_of_not_mem _ _ (hg2 ▸ hgrest)
        simp only [addToGroups, if_pos hgk, entriesAt_cons, if_pos hg2,
          if_pos hk2, hrest]
        simp
      · have hg2 : ¬(g.1 = k2) := fun hh => hk2 (hh.symm.trans hgk)
        simp only [addToGroups, if_pos hgk, entriesAt_cons, if_neg hg2,
          if_neg hk2]
    · by_cases hk2 : k2 = k
      · have hg2 : ¬(g.1 = k2) := fun hh => hgk (hh.trans hk2)
        simp only [addToGroups, if_neg hgk, entriesAt_cons, if_neg hg2,
          ih hnodup, if_pos hk2]
      · by_cases hg2 : g.1 = k2
        · simp only [addToGroups, if_neg hgk, entriesAt_cons, if_pos hg2,
            ih hnodup, if_neg hk2]
        · simp only [addToGroups, if_neg hgk, entriesAt_cons, if_neg hg2,
            ih hnodup, if_neg hk2]

theorem newKeys_congr (s1 s2 : List (String × String))
    (h : ∀ x, x ∈ s1 ↔ x ∈ s2) (l : List (String × String)) :
    newKeys s1 l = newKeys s2 l := by
  induction l generalizing s1 s2 with
  | nil => rfl
  | cons k ks ih =>
    by_cases hm : k ∈ s1
    · rw [newKeys, newKeys, if_pos hm, if_pos ((h k).mp hm)]
      exact ih s1 s2 h
    · rw [newKeys, newKeys, if_neg hm, if_neg (fun hh => hm ((h k).mpr hh))]
      rw [ih (k :: s1) (k :: s2) (fun x => by simp [List.mem_cons, h x])]

theorem keysOf_groupVenues (acc : List ((String × String) × List VenueItem))
    (l : List Venue) (h : (keysOf acc).Nodup) :
    keysOf (groupVenues acc l) =
      keysOf acc ++ newKeys (keysOf acc) (l.map venueKey) := by
  induction l generalizing acc with
  | nil => simp [groupVenues, newKeys]
  | cons v vs ih =>
    simp only [groupVenues, List.map_cons, newKeys]
    by_cases hm : venueKey v ∈ keysOf acc
    · have hkeys : keysOf (addToGroups (venueKey v) (venueItem v) acc) =
          keysOf acc := by
        rw [keysOf_addToGroups, if_pos hm]
      rw [if_pos hm, ih _ (hkeys ▸ h), hkeys]
    · have hkeys : keysOf (addToGroups (venueKey v) (venueItem v) acc) =
          keysOf acc ++ [venueKey v] := by
        rw [keysOf_addToGroups, if_neg hm]
      have hnodup2 := nodup_keysOf_addToGroups (venueKey v) (venueItem v) acc h
      rw [if_neg hm, ih _ hnodup2, hkeys, List.append_assoc,
        List.singleton_append]
      rw [newKeys_congr (keysOf acc ++ [venueKey v]) (venueKey v :: keysOf acc)
        (fun x => by simp [List.mem_append, List.mem_cons, or_comm]) (vs.map venueKey)]

theorem nodup_keysOf_groupVenues (acc : List ((String × String) × List VenueItem))
    (l : List Venue) (h : (keysOf acc).Nodup) :
    (keysOf (groupVenues acc l)).Nodup := by
  induction l generalizing acc with
  | nil => simpa [groupVenues] using h
  | cons v vs ih =>
    exact ih _ (nodup_keysOf_addToGroups _ _ _ h)

theorem entriesAt_groupVenues (k : String × String)
    (acc : List ((String × String) × List VenueItem)) (l : List Venue)
    (h : (keysOf acc).Nodup) :
    entriesAt k (groupVenues acc l) =
      entriesAt k acc ++ (l.filter (fun v => venueKey v = k)).map venueItem := by
  induction l generalizing acc with
  | nil => simp [groupVenues]
  | cons v vs ih =>
    simp only [groupVenues, List.filter_cons]
    by_cases hv : venueKey v = k
    · rw [ih _ (nodup_keysOf_addToGroups _ _ _ h),
        entriesAt_addToGroups _ _ _ _ h, if_pos hv.symm]
      simp [hv, List.append_assoc]
    · rw [ih _ (nodup_keysOf_addToGroups _ _ _ h),
        entriesAt_addToGroups _ _ _ _ h,
        if_neg (fun hh => hv hh.symm)]
      simp [hv]

theorem flatMap_addToGroups_perm (k : String × String) (e : VenueItem)
    (gs : List ((String × String) × List VenueItem)) :
    ((addToGroups k e gs).flatMap Prod.snd).Perm
      (gs.flatMap Prod.snd ++ [e]) := by
  induction gs with
  | nil => simp [addToGroups]
  | cons g rest ih =>
    by_cases h : g.1 = k
    · simp only [addToGroups, if_pos h, List.flatMap_cons]
      rw [List.append_assoc, List.append_assoc]
      exact List.Perm.append_left _ List.perm_append_comm
    · simp only [addToGroups, if_neg h, List.flatMap_cons]
      rw [List.append_assoc]
      exact List.Perm.append_left _ ih

theorem flatMap_groupVenues_perm
    (acc : List ((String × String) × List VenueItem)) (l : List Venue) :
    ((groupVenues acc l).flatMap Prod.snd).Perm
      (acc.flatMap Prod.snd ++ l.map venueItem) := by
  induction l generalizing acc with
  | nil => simp [groupVenues]
  | cons v vs ih =>
    simp only [groupVenues, List.map_cons]
    rw [← List.singleton_append, ← List.append_assoc]
    exact (ih _).trans ((flatMap_addToGroups_perm _ _ _).append_right _)

theorem mem_entriesAt (e : VenueItem) (k : String × String)
    (gs : List ((String × String) × List VenueItem)) :
    e ∈ entriesAt k gs ↔ ∃ g, g ∈ gs ∧ g.1 = k ∧ e ∈ g.2 := by
  simp only [entriesAt, List.mem_flatMap, List.mem_filter, decide_eq_true_eq]
  tauto

theorem entriesAt_eq_of_mem (gs : List ((String × String) × List VenueItem))
    (g : (String × String) × List VenueItem) (h : (keysOf gs).Nodup)
    (hg : g ∈ gs) : entriesAt g.1 gs = g.2 := by
  induction gs with
  | nil => cases hg
  | cons g0 rest ih =>
    rw [keysOf_cons] at h
    rcases List.mem_cons.mp hg with rfl | hmem
    · rw [entriesAt_cons, if_pos rfl,
        entriesAt_of_not_mem _ _ (List.nodup_cons.mp h).1, List.append_nil]
    · have hne : ¬(g0.1 = g.1) := by
        intro hh
        exact (List.nodup_cons.mp h).1 (hh ▸ List.mem_map_of_mem Prod.fst hmem)
      rw [entriesAt_cons, if_neg hne]
      exact ih (List.nodup_cons.mp h).2 hmem

theorem flatMap_venues_map (gs : List ((String × String) × List VenueItem)) :
    ((gs.map (fun g => (⟨g.1.1, g.1.2, g.2⟩ : Area))).flatMap Area.venues) =
      gs.flatMap Prod.snd := by
  induction gs with
  | nil => rfl
  | cons g rest ih => simp only [List.map_cons, List.flatMap_cons, ih]

/-- Claim C1: for every stored set of Venues (with distinct primary keys),
the venues listing groups every venue into exactly one `(city, state)` group
(the one matching its own city and state), the union of the groups equals the
stored set, venues inside a group are in descending-id order, and groups
appear in the order their key is first met in the list sorted by (city,
state, id desc). -/
theorem claim_C1 (db : DB) (h : (db.venues.map Venue.id).Nodup) :
    venuesListingCorrect db := by
  have hperm := List.mergeSort_perm db.venues venueLE
  have hsort := List.sorted_mergeSort venueLE_trans venueLE_total db.venues
  have hacc : (keysOf ([] : List ((String × String) × List VenueItem))).Nodup := by
    simp [keysOf]
  have hnodupkeys := nodup_keysOf_groupVenues [] (db.venues.mergeSort venueLE) hacc
  have hentries : ∀ k, entriesAt k (groupVenues [] (db.venues.mergeSort venueLE)) =
      ((db.venues.mergeSort venueLE).filter (fun v => venueKey v = k)).map venueItem := by
    intro k
    have hh := entriesAt_groupVenues k [] (db.venues.mergeSort venueLE) hacc
    simpa [entriesAt] using hh
  have hinj := List.inj_on_of_nodup_map h
  have hsnodup : ((db.venues.mergeSort venueLE).map Venue.id).Nodup :=
    ((hperm.map Venue.id).nodup_iff).mpr h
  have hkeyof : ∀ v ∈ db.venues, ∀ a ∈ venuesListing db,
      venueItem v ∈ a.venues → (a.city, a.state) = venueKey v := by
    intro v hv a ha hitem
    obtain ⟨g, hg, rfl⟩ := List.mem_map.mp ha
    have hIn : venueItem v ∈
        entriesAt g.1 (groupVenues [] (db.venues.mergeSort venueLE)) := by
      rw [entriesAt_eq_of_mem _ _ hnodupkeys hg]
      exact hitem
    rw [hentries g.1] at hIn
    obtain ⟨w, hw, hwitem⟩ := List.mem_map.mp hIn
    have hw2 := List.mem_filter.mp hw
    have hwkey : venueKey w = g.1 := by simpa using hw2.2
    have hwid : w.id = v.id := congrArg VenueItem.id hwitem
    have hwv : w = v := hinj (List.mem_mergeSort.mp hw2.1) hv hwid
    show (g.1.1, g.1.2) = venueKey v
    rw [Prod.mk.eta, ← hwv]
    exact hwkey.symm
  refine ⟨?_, ?_, ?_, ?_, ?_⟩
  · intro v hv
    have hvs : v ∈ db.venues.mergeSort venueLE := List.mem_mergeSort.mpr hv
    have hvf : v ∈ (db.venues.mergeSort venueLE).filter
        (fun w => venueKey w = venueKey v) := by
      simp [List.mem_filter, hvs]
    have hIn : venueItem v ∈
        entriesAt (venueKey v) (groupVenues [] (db.venues.mergeSort venueLE)) := by
      rw [hentries]
      exact List.mem_map_of_mem venueItem hvf
    obtain ⟨g, hg, hgk, hgitem⟩ := (mem_entriesAt _ _ _).mp hIn
    refine ⟨⟨g.1.1, g.1.2, g.2⟩, ⟨List.mem_map_of_mem _ hg, hgitem⟩, ?_⟩
    rintro b ⟨hb, hbitem⟩
    have hk2 : (b.city, b.state) = venueKey v := hkeyof v hv b hb hbitem
    obtain ⟨g2, hg2, rfl⟩ := List.mem_map.mp hb
    have hg2k : g2.1 = venueKey v := by
      rw [← Prod.mk.eta (p := g2.1)]
      exact hk2
    have hgg : g2 = g :=
      List.inj_on_of_nodup_map hnodupkeys hg2 hg (by rw [hg2k, hgk])
    rw [hgg]
  · intro v hv a ha hitem
    have hk := hkeyof v hv a ha hitem
    exact ⟨congrArg Prod.fst hk, congrArg Prod.snd hk⟩
  · have h1 := flatMap_groupVenues_perm [] (db.venues.mergeSort venueLE)
    have h2 : List.Perm
        ((groupVenues [] (db.venues.mergeSort venueLE)).flatMap Prod.snd)
        ((db.venues.mergeSort venueLE).map venueItem) := by
      simpa using h1
    simp only [venuesListing]
    rw [flatMap_venues_map]
    exact h2.trans (hperm.map venueItem)
  · intro a ha
    simp only [venuesListing] at ha
    obtain ⟨g, hg, rfl⟩ := List.mem_map.mp ha
    have hgv : g.2 = ((db.venues.mergeSort venueLE).filter
        (fun v => venueKey v = g.1)).map venueItem := by
      rw [← entriesAt_eq_of_mem _ _ hnodupkeys hg, hentries]
    show List.Pairwise _ g.2
    rw [hgv, List.pairwise_map]
    have hflt : List.Pairwise (fun a b => venueLE a b = true)
        ((db.venues.mergeSort venueLE).filter (fun v => venueKey v = g.1)) :=
      List.Pairwise.sublist (List.filter_sublist _) hsort
    have hfn : (((db.venues.mergeSort venueLE).filter
        (fun v => venueKey v = g.1)).map Venue.id).Nodup :=
      List.Nodup.sublist ((List.filter_sublist _).map Venue.id) hsnodup
    have hne := List.pairwise_map.mp hfn
    have hall : ∀ x ∈ (db.venues.mergeSort venueLE).filter
        (fun v => venueKey v = g.1), venueKey x = g.1 := by
      intro x hx
      simpa using (List.mem_filter.mp hx).2
    refine List.Pairwise.imp_of_mem ?_ (hflt.and hne)
    intro x y hx hy hxy
    have hkk : venueKey x = venueKey y := (hall x hx).trans (hall y hy).symm
    have hle := venueLE_id_of_key_eq x y
      (congrArg Prod.fst hkk) (congrArg Prod.snd hkk) hxy.1
    exact Nat.lt_of_le_of_ne hle (fun hh => hxy.2 hh.symm)
  · simp only [venuesListing, List.map_map]
    have hk := keysOf_groupVenues [] (db.venues.mergeSort venueLE) hacc
    have hmapeq : (groupVenues [] (db.venues.mergeSort venueLE)).map
        ((fun a => (a.city, a.state)) ∘ (fun g => (⟨g.1.1, g.1.2, g.2⟩ : Area))) =
        keysOf (groupVenues [] (db.venues.mergeSort venueLE)) := by
      unfold keysOf
      exact List.map_congr_left (fun g _ => Prod.mk.eta)
    rw [hmapeq, hk]
    simp [keysOf, newKeys]

/-- Witness: the C1 theorem applied to the concrete store `dbC1`. -/
theorem claim_C1_witness :
    (dbC1.venues.map Venue.id).Nodup ∧ venuesListingCorrect dbC1 :=
  ⟨by decide, claim_C1 dbC1 (by decide)⟩

/- ## ILIKE matching vs. case-insensitive substring containment -/

theorem startsCI_nil_right (sub : List Char) : startsCI sub [] = sub.isEmpty := by
  cases sub <;> rfl

theorem nil_mem_tailsOf (s : List Char) : [] ∈ tailsOf s := by
  induction s with
  | nil => simp [tailsOf]
  | cons d s ih => simp [tailsOf, ih]

theorem likeM_pct_nil (s : List Char) : likeM [pct] s = true := by
  simp [likeM]
  exact nil_mem_tailsOf s

theorem likeM_append_pct (p : List Char) (h : noWild p = true) (s : List Char) :
    likeM (p ++ [pct]) s = startsCI p s := by
  induction p generalizing s with
  | nil => simp [startsCI, likeM_pct_nil]
  | cons c p ih =>
    simp only [noWild, List.all_cons, Bool.and_eq_true, Bool.not_eq_true',
      beq_eq_false_iff_ne, ne_eq] at h
    obtain ⟨⟨hcp, hcu⟩, hp⟩ := h
    have hp2 : noWild p = true := hp
    have hcu2 : (c == usc) = false := beq_eq_false_iff_ne.mpr hcu
    cases s with
    | nil => simp [likeM, startsCI, hcp]
    | cons d s2 => simp [likeM, startsCI, hcp, hcu2, ih hp2]

theorem containsCI_eq_any (sub s : List Char) :
    containsCI sub s = (tailsOf s).any (fun t => startsCI sub t) := by
  induction s with
  | nil => simp [containsCI, tailsOf, startsCI_nil_right]
  | cons d s ih => simp [containsCI, tailsOf, ih]

theorem likeM_ilike (term s : List Char) (h : noWild term = true) :
    likeM (pct :: (term ++ [pct])) s = containsCI term s := by
  rw [containsCI_eq_any]
  have hfun : (fun t => likeM (term ++ [pct]) t) =
      (fun t => startsCI term t) := funext (likeM_append_pct term h)
  simp [likeM, hfun]

theorem containsCI_nil_left (s : List Char) : containsCI [] s = true := by
  cases s <;> simp [containsCI, startsCI]

/-- Claim C5 counterexample: with the search term `"%"`, the single stored
venue named "a" is returned although its name does not contain `"%"` — so
the as-stated soundness direction fails for wildcard-bearing substrings. -/
theorem claim_C5_counterexample :
    ¬ (∀ v ∈ searchVenuesMatched "%" dbC5,
        containsCI "%".toList v.name.toList = true) := by
  decide

/-- Claim C5 (amended): for every search substring free of the SQL LIKE
wildcard characters `%` and `_`, the records returned by venue/artist
search are exactly the stored records whose name contains the substring
case-insensitively; the empty substring matches every record. -/
theorem claim_C5 (term : String) (db : DB) (h : noWild term.toList = true) :
    (∀ v, v ∈ searchVenuesMatched term db ↔
      (v ∈ db.venues ∧ containsCI term.toList v.name.toList = true)) ∧
    (∀ a, a ∈ searchArtistsMatched term db ↔
      (a ∈ db.artists ∧ containsCI term.toList a.name.toList = true)) ∧
    searchVenuesMatched "" db = db.venues ∧
    searchArtistsMatched "" db = db.artists := by
  have hlike : ∀ s : List Char,
      likeM (ilikePattern term) s = containsCI term.toList s := by
    intro s
    exact likeM_ilike term.toList s h
  have hempty : ∀ s : List Char,
      likeM (ilikePattern "") s = true := by
    intro s
    have h0 := likeM_ilike [] s rfl
    simpa [ilikePattern, containsCI_nil_left] using h0
  refine ⟨?_, ?_, ?_, ?_⟩
  · intro v
    simp [searchVenuesMatched, List.mem_filter, hlike]
  · intro a
    simp [searchArtistsMatched, List.mem_filter, hlike]
  · exact List.filter_eq_self.mpr (fun v _ => hempty v.name.toList)
  · exact List.filter_eq_self.mpr (fun a _ => hempty a.name.toList)

/-- Witness: the amended search theorem applied to the term "Hall" on the
concrete store `dbC1`. -/
theorem claim_C5_witness :
    noWild "Hall".toList = true ∧
    ((∀ v, v ∈ searchVenuesMatched "Hall" dbC1 ↔
        (v ∈ dbC1.venues ∧ containsCI "Hall".toList v.name.toList = true)) ∧
     (∀ a, a ∈ searchArtistsMatched "Hall" dbC1 ↔
        (a ∈ dbC1.artists ∧ containsCI "Hall".toList a.name.toList = true)) ∧
     searchVenuesMatched "" dbC1 = dbC1.venues ∧
     searchArtistsMatched "" dbC1 = dbC1.artists) :=
  ⟨by decide, claim_C5 "Hall" dbC1 (by decide)⟩

/- ## Search response counts (claim C4) -/

/-- Claim C4 counterexample: a show starting exactly at the current time is
not counted as upcoming by the code (`start_time > now` is strict), so
`num_upcoming_shows` differs from the claim's `start_time ≥ now` count. -/
theorem claim_C4_counterexample :
    ¬ (∀ e ∈ (searchVenuesResponse "" 10 dbC4).data,
        e.num_upcoming_shows =
          (dbC4.shows.filter
            (fun s => s.venue_id == e.id && decide (10 ≤ s.start_time))).length) := by
  decide

/-- Claim C4 (amended): each search-result row's `num_upcoming_shows` counts
that record's shows with start timestamp strictly greater than the current
time, and `count` equals the number of matched records. -/
theorem claim_C4 (term : String) (now : Nat) (db : DB) :
    (searchVenuesResponse term now db).count =
      (searchVenuesMatched term db).length ∧
    (searchArtistsResponse term now db).count =
      (searchArtistsMatched term db).length ∧
    (∀ e ∈ (searchVenuesResponse term now db).data,
      e.num_upcoming_shows =
        (db.shows.filter
          (fun s => s.venue_id == e.id && decide (now < s.start_time))).length) ∧
    (∀ e ∈ (searchArtistsResponse term now db).data,
      e.num_upcoming_shows =
        (db.shows.filter
          (fun s => s.artist_id == e.id && decide (now < s.start_time))).length) := by
  refine ⟨rfl, rfl, ?_, ?_⟩
  · intro e he
    simp only [searchVenuesResponse, List.mem_map] at he
    obtain ⟨v, _, rfl⟩ := he
    rfl
  · intro e he
    simp only [searchArtistsResponse, List.mem_map] at he
    obtain ⟨a, _, rfl⟩ := he
    rfl

/-- Witness: the amended C4 theorem evaluated on the concrete store `dbC4`
at the row for venue 1. -/
theorem claim_C4_witness :
    (⟨1, "a", 0⟩ : SearchEntry) ∈ (searchVenuesResponse "" 10 dbC4).data ∧
    (⟨1, "a", 0⟩ : SearchEntry).num_upcoming_shows =
      (dbC4.shows.filter
        (fun s => s.venue_id == (⟨1, "a", 0⟩ : SearchEntry).id &&
          decide (10 < s.start_time))).length :=
  ⟨by decide, (claim_C4 "" 10 dbC4).2.2.1 ⟨1, "a", 0⟩ (by decide)⟩

/- ## Detail pages: past/upcoming partition (claim C6) -/

/-- Claim C6: at an existing venue/artist id, every associated show lands in
`past_shows` exactly when it starts strictly before `now` and in
`upcoming_shows` exactly when it starts at or after `now`, and both counts
equal the lengths of those lists. -/
theorem claim_C6 (db : DB) (now xid : Nat) :
    (∀ d, showVenueDetail db now xid = Except.ok d →
      (∀ s ∈ venueShows db xid,
        (s ∈ d.past_shows ↔ s.start_time < now) ∧
        (s ∈ d.upcoming_shows ↔ now ≤ s.start_time)) ∧
      d.past_shows_count = d.past_shows.length ∧
      d.upcoming_shows_count = d.upcoming_shows.length) ∧
    (∀ d, showArtistDetail db now xid = Except.ok d →
      (∀ s ∈ artistShows db xid,
        (s ∈ d.past_shows ↔ s.start_time < now) ∧
        (s ∈ d.upcoming_shows ↔ now ≤ s.start_time)) ∧
      d.past_shows_count = d.past_shows.length ∧
      d.upcoming_shows_count = d.upcoming_shows.length) := by
  constructor
  · intro d hd
    cases hf : db.venues.find? (fun v => v.id == xid) with
    | none => simp [showVenueDetail, hf] at hd
    | some v =>
      have hvid : v.id = xid := by
        have := List.find?_some hf
        simpa using this
      simp only [showVenueDetail, hf, Except.ok.injEq] at hd
      subst hd
      refine ⟨?_, rfl, rfl⟩
      intro s hs
      rw [hvid]
      constructor
      · simp [List.mem_filter, hs]
      · simp [List.mem_filter, hs, Nat.not_lt]
  · intro d hd
    cases hf : db.artists.find? (fun a => a.id == xid) with
    | none => simp [showArtistDetail, hf] at hd
    | some a =>
      have haid : a.id = xid := by
        have := List.find?_some hf
        simpa using this
      simp only [showArtistDetail, hf, Except.ok.injEq] at hd
      subst hd
      refine ⟨?_, rfl, rfl⟩
      intro s hs
      rw [haid]
      constructor
      · simp [List.mem_filter, hs]
      · simp [List.mem_filter, hs, Nat.not_lt]

/-- Witness: the partition theorem applied to the concrete store `dbC6` at
venue 1 and time 10. -/
theorem claim_C6_witness :
    showVenueDetail dbC6 10 1 = Except.ok detailC6 ∧
    ((∀ s ∈ venueShows dbC6 1,
        (s ∈ detailC6.past_shows ↔ s.start_time < 10) ∧
        (s ∈ detailC6.upcoming_shows ↔ 10 ≤ s.start_time)) ∧
      detailC6.past_shows_count = detailC6.past_shows.length ∧
      detailC6.upcoming_shows_count = detailC6.upcoming_shows.length) :=
  ⟨rfl, (claim_C6 dbC6 10 1).1 detailC6 rfl⟩

/- ## NotFound on absent ids (claim C7) -/

/-- Claim C7: for an id not present in storage, venue detail, artist detail,
and delete-venue all fail with NotFound and delete performs no mutation. -/
theorem claim_C7 (db : DB) (now xid : Nat)
    (hv : ∀ v ∈ db.venues, v.id ≠ xid) (ha : ∀ a ∈ db.artists, a.id ≠ xid) :
    showVenueDetail db now xid = Except.error Err.notFound ∧
    showArtistDetail db now xid = Except.error Err.notFound ∧
    (∀ fault, deleteVenue fault db xid = (Except.error Err.notFound, db)) := by
  have hfv : db.venues.find? (fun v => v.id == xid) = none :=
    List.find?_eq_none.mpr (fun v hvm => by simpa using hv v hvm)
  have hfa : db.artists.find? (fun a => a.id == xid) = none :=
    List.find?_eq_none.mpr (fun a ham => by simpa using ha a ham)
  refine ⟨?_, ?_, ?_⟩
  · simp [showVenueDetail, hfv]
  · simp [showArtistDetail, hfa]
  · intro fault
    simp [deleteVenue, hfv]

/-- Witness: NotFound behaviour at the absent id 99 on the store `dbC1`. -/
theorem claim_C7_witness :
    (∀ v ∈ dbC1.venues, v.id ≠ 99) ∧ (∀ a ∈ dbC1.artists, a.id ≠ 99) ∧
    (showVenueDetail dbC1 0 99 = Except.error Err.notFound ∧
     showArtistDetail dbC1 0 99 = Except.error Err.notFound ∧
     (∀ fault, deleteVenue fault dbC1 99 = (Except.error Err.notFound, dbC1))) :=
  ⟨by decide, by decide, claim_C7 dbC1 0 99 (by decide) (by decide)⟩

/- ## Atomicity of writes (claim C8) -/

/-- Claim C8: every write operation is atomic — when the commit faults, the
durable store after create, edit, or delete equals the prior store, and a
re-fetch of the edited venue returns the prior record unchanged. -/
theorem claim_C8 (f : VenueFormData) (db : DB) (vid now : Nat) :
    (createVenueSubmission true f db).2 = db ∧
    (editVenueSubmission true vid f db).2 = db ∧
    (deleteVenue true db vid).2 = db ∧
    showVenueDetail (editVenueSubmission true vid f db).2 now vid =
      showVenueDetail db now vid := by
  have he : (editVenueSubmission true vid f db).2 = db := by
    cases hf : db.venues.find? (fun v => v.id == vid) with
    | none => simp [editVenueSubmission, hf]
    | some v => simp [editVenueSubmission, hf, commitSession, rollbackSession]
  refine ⟨rfl, he, ?_, by rw [he]⟩
  cases hf : db.venues.find? (fun v => v.id == vid) with
  | none => simp [deleteVenue, hf]
  | some v => simp [deleteVenue, hf, commitSession, rollbackSession]

/- ## Create-then-fetch round trip (claim C9) -/

theorem le_foldr_max (l : List Nat) (x : Nat) (hx : x ∈ l) :
    x ≤ l.foldr max 0 := by
  induction l with
  | nil => cases hx
  | cons y l ih =>
    rcases List.mem_cons.mp hx with rfl | hmem
    · exact Nat.le_max_left _ _
    · exact le_trans (ih hmem) (Nat.le_max_right _ _)

/-- Claim C9: creating a venue from form fields and immediately fetching the
detail page at the generated id returns exactly the input fields, with both
show counts zero (given referential integrity of the prior store). -/
theorem claim_C9 (f : VenueFormData) (db : DB) (now : Nat)
    (href : ∀ s ∈ db.shows, ∃ v ∈ db.venues, s.venue_id = v.id) :
    (createVenueSubmission false f db).1 = true ∧
    showVenueDetail (createVenueSubmission false f db).2 now (nextVenueId db) =
      Except.ok ⟨nextVenueId db, f.name, f.genres, f.address, f.city, f.state,
        f.phone, f.website_link, f.facebook_link, f.seeking_talent,
        f.seeking_description, f.image_link, [], [], 0, 0⟩ := by
  have hfresh : ∀ w ∈ db.venues, w.id ≠ nextVenueId db := by
    intro w hw
    have hle := le_foldr_max (db.venues.map Venue.id) w.id
      (List.mem_map_of_mem _ hw)
    simp only [nextVenueId]
    omega
  have hfind : (db.venues ++ [venueFromForm (nextVenueId db) f]).find?
      (fun v => v.id == nextVenueId db) =
      some (venueFromForm (nextVenueId db) f) := by
    rw [List.find?_append]
    have h1 : db.venues.find? (fun v => v.id == nextVenueId db) = none :=
      List.find?_eq_none.mpr (fun v hv => by simpa using hfresh v hv)
    rw [h1]
    simp [List.find?, venueFromForm]
  have hshows : db.shows.filter (fun s => s.venue_id == nextVenueId db) = [] := by
    apply List.filter_eq_nil_iff.mpr
    intro s hs
    obtain ⟨v, hvm, hsv⟩ := href s hs
    have hle := le_foldr_max (db.venues.map Venue.id) v.id
      (List.mem_map_of_mem _ hvm)
    simp only [beq_iff_eq, hsv, nextVenueId]
    omega
  constructor
  · rfl
  · show showVenueDetail (⟨db.venues ++ [venueFromForm (nextVenueId db) f],
        db.artists, db.shows⟩ : DB) now (nextVenueId db) = _
    simp only [showVenueDetail, hfind]
    simp [venueShows, venueFromForm, hshows]

/-- Witness: the spec's scenario — create "The Hall" on an empty store and
fetch its detail page. -/
theorem claim_C9_witness :
    (∀ s ∈ dbEmpty.shows, ∃ v ∈ dbEmpty.venues, s.venue_id = v.id) ∧
    ((createVenueSubmission false formHall dbEmpty).1 = true ∧
     showVenueDetail (createVenueSubmission false formHall dbEmpty).2 7
        (nextVenueId dbEmpty) =
      Except.ok ⟨nextVenueId dbEmpty, formHall.name, formHall.genres,
        formHall.address, formHall.city, formHall.state, formHall.phone,
        formHall.website_link, formHall.facebook_link, formHall.seeking_talent,
        formHall.seeking_description, formHall.image_link, [], [], 0, 0⟩) :=
  ⟨by decide, claim_C9 formHall dbEmpty 7 (by decide)⟩

/- ## Shows page and show creation are TODO stubs (claims C2 and C3) -/

/-- Claim C2 evidence: with an empty Show table the handler still returns
five rows, and its output never depends on storage — the body is the
hard-coded mock left under `TODO: replace with real venues data.` -/
theorem claim_C2 :
    dbEmpty.shows.length = 0 ∧ (showsListing dbEmpty).length = 5 ∧
    (∀ db : DB, showsListing db = showsListing dbEmpty) :=
  ⟨rfl, rfl, fun _ => rfl⟩

/-- Claim C3 evidence: the create-show handler inserts nothing and reports
success both on a valid request (venue 1 / artist 1 exist in `dbC4`) and on
a request whose artist id 99 resolves to no record. -/
theorem claim_C3 :
    createShowSubmission dbC4 20 1 1 = (true, dbC4) ∧
    (∀ a ∈ dbC4.artists, a.id ≠ 99) ∧
    createShowSubmission dbC4 20 1 99 = (true, dbC4) :=
  ⟨rfl, by decide, rfl⟩

/- ## Artists listing (claim C10) -/

theorem artistGE_trans (a b c : Artist) (h1 : artistGE a b = true)
    (h2 : artistGE b c = true) : artistGE a c = true :=
  natGE_trans _ _ _ h1 h2

theorem artistGE_total (a b : Artist) : (artistGE a b || artistGE b a) = true :=
  natGE_total _ _

/-- Claim C10: the artists listing returns exactly one `{id, name}` entry
per stored artist, ordered by descending id. -/
theorem claim_C10 (db : DB) (h : (db.artists.map Artist.id).Nodup) :
    List.Perm (artistsListing db)
      (db.artists.map (fun a => (⟨a.id, a.name⟩ : ArtistItem))) ∧
    (artistsListing db).Pairwise (fun x y => y.id < x.id) := by
  constructor
  · simpa [artistsListing] using
      (List.mergeSort_perm db.artists artistGE).map
        (fun a => (⟨a.id, a.name⟩ : ArtistItem))
  · have hsort := List.sorted_mergeSort artistGE_trans artistGE_total db.artists
    have hsnodup : ((db.artists.mergeSort artistGE).map Artist.id).Nodup :=
      (((List.mergeSort_perm db.artists artistGE).map Artist.id).nodup_iff).mpr h
    have hne := List.pairwise_map.mp hsnodup
    simp only [artistsListing, List.pairwise_map]
    refine List.Pairwise.imp_of_mem ?_ (hsort.and hne)
    intro x y hx hy hxy
    have hle : y.id ≤ x.id := by
      have hxy1 := hxy.1
      simpa [artistGE, natGE] using hxy1
    exact Nat.lt_of_le_of_ne hle (fun hh => hxy.2 hh.symm)

/-- Witness: the artists-listing theorem applied to the store `dbC4`. -/
theorem claim_C10_witness :
    (dbC4.artists.map Artist.id).Nodup ∧
    (List.Perm (artistsListing dbC4)
      (dbC4.artists.map (fun a => (⟨a.id, a.name⟩ : ArtistItem))) ∧
     (artistsListing dbC4).Pairwise (fun x y => y.id < x.id)) :=
  ⟨by decide, claim_C10 dbC4 (by decide)⟩

end Fyyur
